import Mathlib

set_option maxRecDepth 100000

/-!
Shallow embedding of `generate_config.py` (NginxSourceViewer config generator).

The generator's core is the function `run(languages, styles=None)`.  Its catalog
queries (`get_cdn_files`) are network calls; following the spec they are treated
as an injected query interface, so `run` below takes the three catalog responses
(the version strings, and the highlighting engine's file list) as arguments.
`jquery_files` and `line_numbers_files` are only logged by the source and are
therefore not parameters.  Logging is side-effect-only and is not modelled.

CPython iterates the set `missing_styles` in an implementation-defined,
hash-randomized order when it evaluates `', '.join(missing_styles)`; that hidden
iteration order is made explicit as the extra argument `msOrder`.
-/

/-- Errors raised by `run` (the source raises `ValueError` at three distinct
places: `list.remove('default')` during style normalization, the single-quote
guard of line 113, and the size guard of line 122; the spec names the latter two
`UnsafeLiteralError` and `ConfigTooLargeError`). -/
inductive GenError where
  | removeMissing
  | unsafeLiteral
  | configTooLarge
deriving DecidableEq

/-- The single-quote character (code point 39), the nginx string-literal delimiter. -/
def squote : Char := Char.ofNat 39

/-- Python `x.startswith(pre)`, on code points. -/
def startsWithB (pre x : String) : Bool := List.isPrefixOf pre.data x.data

/-- Python `x.endswith(suf)`, on code points. -/
def endsWithB (suf x : String) : Bool := List.isSuffixOf suf.data x.data

/-- Python slice `x[pre:-suf]`: drop the first `pre` and the last `suf` code
points (empty result when fewer than `pre + suf` code points remain). -/
def cut (pre suf : Nat) (x : String) : String :=
  String.mk ((x.data.drop pre).take (x.data.length - (pre + suf)))

/-- Python `sep.join(parts)`. -/
def joinSep (sep : String) : List String → String
  | [] => ""
  | [a] => a
  | a :: b :: rest => a ++ sep ++ joinSep sep (b :: rest)

/-- `possible_languages = {x[10:-7] for x in highlight_files if x.startswith('languages/')}`
(line 76).  The Python set is modelled as a duplicate-free list; note that the
source filters on the prefix only and blindly cuts the last seven code points,
whatever the suffix is. -/
def possibleLanguagesOf (highlightFiles : List String) : List String :=
  ((highlightFiles.filter (fun x => startsWithB "languages/" x)).map (cut 10 7)).dedup

/-- `possible_styles = {x[7:-8] for x in highlight_files if x.startswith('styles/')}`
(line 78), modelled like `possibleLanguagesOf`. -/
def possibleStylesOf (highlightFiles : List String) : List String :=
  ((highlightFiles.filter (fun x => startsWithB "styles/" x)).map (cut 7 8)).dedup

/-- Modelled from the spec (§4.2 wording, for comparison with the source):
"possibleLanguages = { path with prefix `languages/` and suffix `.min.js`
stripped, for each path in files matching that prefix/suffix }" — i.e. only
paths that match BOTH affixes contribute. -/
def specPossibleLanguagesOf (highlightFiles : List String) : List String :=
  ((highlightFiles.filter
      (fun x => startsWithB "languages/" x && endsWithB ".min.js" x)).map (cut 10 7)).dedup

/-- Modelled from the spec (§4.2 wording, for comparison with the source):
possibleStyles from paths matching prefix `styles/` AND suffix `.min.css`. -/
def specPossibleStylesOf (highlightFiles : List String) : List String :=
  ((highlightFiles.filter
      (fun x => startsWithB "styles/" x && endsWithB ".min.css" x)).map (cut 7 8)).dedup

/-- `[*sorted(possible_styles)]` (line 84): Python `sorted` on a set of
distinct strings, i.e. the unique lexicographically ordered enumeration. -/
def sortedPossibleStyles (highlightFiles : List String) : List String :=
  List.insertionSort (fun a b : String => a ≤ b) (possibleStylesOf highlightFiles)

/-- Style-list normalization (lines 83-86): when the caller passes no style
list, take `[*sorted(possible_styles)]`, `styles.remove('default')` — which
raises `ValueError` when `'default'` is absent — then
`styles.insert(0, 'default')`. -/
def effectiveStylesOf (highlightFiles : List String) :
    Option (List String) → Except GenError (List String)
  | some s => Except.ok s
  | none =>
    if "default" ∈ sortedPossibleStyles highlightFiles then
      Except.ok ("default" :: (sortedPossibleStyles highlightFiles).erase "default")
    else Except.error GenError.removeMissing

/-- `missing_languages = set(languages.keys()) - possible_languages` (line 88).
Only membership and emptiness of this set are ever used, so a filtered list of
the keys is a faithful model. -/
def missingLanguagesOf (highlightFiles : List String)
    (languages : List (String × String)) : List String :=
  (languages.map Prod.fst).filter (fun k => !decide (k ∈ possibleLanguagesOf highlightFiles))

/-- `missing_styles = set(styles) - possible_styles` (line 89); membership,
emptiness and the (order-oracle) join are its only uses. -/
def missingStylesOf (highlightFiles : List String) (styles : List String) : List String :=
  styles.filter (fun s => !decide (s ∈ possibleStylesOf highlightFiles))

/-- Hex digit `0`-`9a-f`, as produced by CPython's `json` encoder. -/
def hexDigit (n : Nat) : Char := if n < 10 then Char.ofNat (48 + n) else Char.ofNat (87 + n)

/-- Four lowercase hex digits. -/
def hex4 (n : Nat) : String :=
  String.mk [hexDigit (n / 4096 % 16), hexDigit (n / 256 % 16), hexDigit (n / 16 % 16),
    hexDigit (n % 16)]

/-- Modelled from the spec/stdlib: `json.dumps` escaping of a single character
with CPython defaults (`ensure_ascii=True`): the two delimiters and backslash,
the five short control escapes, `\u00xx` for remaining control characters,
`\uxxxx` (with surrogate pairs) for non-ASCII. -/
def jsonEscapeChar (c : Char) : String :=
  if c = Char.ofNat 34 then "\\\""
  else if c = Char.ofNat 92 then "\\\\"
  else if c = Char.ofNat 8 then "\\b"
  else if c = Char.ofNat 9 then "\\t"
  else if c = Char.ofNat 10 then "\\n"
  else if c = Char.ofNat 12 then "\\f"
  else if c = Char.ofNat 13 then "\\r"
  else if c.toNat < 32 ∨ 126 < c.toNat then
    if c.toNat < 65536 then "\\u" ++ hex4 c.toNat
    else "\\u" ++ hex4 (55296 + (c.toNat - 65536) / 1024) ++
      "\\u" ++ hex4 (56320 + (c.toNat - 65536) % 1024)
  else String.mk [c]

/-- A JSON string literal for `s`. -/
def jsonString (s : String) : String :=
  "\"" ++ String.join (s.data.map jsonEscapeChar) ++ "\""

/-- `json.dumps(styles, separators=(',', ':'))` for a list of strings (line 107). -/
def jsonArray (styles : List String) : String :=
  "[" ++ joinSep "," (styles.map jsonString) ++ "]"

/-- `create_script_tag` (lines 151-154). -/
def createScriptTag (lib version file : String) : String :=
  "<script src=\"https://cdnjs.cloudflare.com/ajax/libs/" ++ lib ++ "/" ++ version ++ "/" ++
    file ++ "\"></script>"

/-- `'\n    '.join(create_script_tag(lib, v, file) for ...)` over the fixed
`scripts` table (lines 96-100, 108). -/
def scriptsBlock (jqueryVersion highlightVersion lineNumbersVersion : String) : String :=
  joinSep "\n    "
    [createScriptTag "jquery" jqueryVersion "jquery.min.js",
     createScriptTag "highlight.js" highlightVersion "highlight.min.js",
     createScriptTag "highlightjs-line-numbers.js" lineNumbersVersion
       "highlightjs-line-numbers.min.js"]

/-- `MINIFIED_CSS` (lines 184-186). -/
def MINIFIED_CSS : String :=
  "body,html,pre\x7bmin-height:100%\x7d.hljs\x7bfont-family:\"Fira Code\",monospace!important\x7d.wrap\x7bwhite-space:pre-wrap;word-wrap:break-word\x7dtd.hljs-ln-code\x7bpadding-left:10px!important\x7dtd.hljs-ln-numbers\x7buser-select:none;text-align:right;color:#ccc;border-right:1px solid #ccc;vertical-align:top;padding-right:5px!important\x7d "

/-- `MINIFIED_JS` (lines 228-235). -/
def MINIFIED_JS : String :=
  "const j=jQuery,ls=localStorage,RAW_URL=\"$uri?raw=1\";var gStyle=STYLES[0];function set_style(e)\x7bj(\"#css\").attr(\"href\",j(\"#js\").attr(\"src\").replace(/lang.+/,\"styles/\"+e+\".min.css\")),j(\"#style\").text(e.replace(/[-_]/g,\" \")),gStyle=e,ls.setItem(\"style\",e)\x7dfunction move_style(e)\x7blet t=STYLES.indexOf(gStyle)+e;t<0&&(t+=STYLES.length),set_style(STYLES[t%STYLES.length])\x7dfunction toggle_wrap()\x7blet e=j(\"#code\"),t=0!=arguments.length?arguments[0]:!e.hasClass(\"wrap\");t?e.addClass(\"wrap\"):e.removeClass(\"wrap\"),ls.setItem(\"wrap\",t)\x7dhljs.configure(\x7btabReplace:\" \"\x7d),j(function()\x7bnull!==ls.getItem(\"style\")?set_style(ls.getItem(\"style\")):set_style(gStyle),null!==ls.getItem(\"wrap\")&&toggle_wrap(ls.getItem(\"wrap\")),j.get(\x7burl:RAW_URL,dataType:\"text\"\x7d).done(function(e)\x7blet t=j(\"#code\").text(e)[0];hljs.highlightBlock(t),hljs.lineNumbersBlock(t)\x7d),j(\"#nxtstyle\").click(function()\x7bmove_style(1)\x7d),j(\"#prvstyle\").click(function()\x7bmove_style(-1)\x7d),j(\"#wrap\").click(function()\x7btoggle_wrap()\x7d)\x7d);"

/-- `MAGIC_HTML` up to and including `<style>` (template-escaped `$$` already
resolved to `$` as `string.Template.substitute` does). -/
def htmlSeg1 : String :=
  "<!DOCTYPE html>\n<html lang=\"en\">\n<head>\n    <meta charset=\"UTF-8\">\n    <meta name=\"generator\" content=\"NginxSourceViewer by Dries007: https://github.com/dries007/NginxSourceViewer\">\n    <link id=\"css\" rel=\"stylesheet\">\n    <style>"

/-- `MAGIC_HTML` between `${css}` and `${scripts}`. -/
def htmlSeg2 : String :=
  "</style>\n    <title>$uri</title>\n</head>\n<body class=\"hljs\">\n    "

/-- `MAGIC_HTML` between `${scripts}` and `${highlight_version}`. -/
def htmlSeg3 : String :=
  "\n    <script id=\"js\" src=\"https://cdnjs.cloudflare.com/ajax/libs/highlight.js/"

/-- `MAGIC_HTML` between `${highlight_version}` and `${styles}`. -/
def htmlSeg4 : String :=
  "/languages/$lang.min.js\"></script>\n    <script>const STYLES="

/-- `MAGIC_HTML` after `${js}` (tail of the document). -/
def htmlSeg5 : String :=
  "</script>\n    <div>\n        <a href=\"./\" class=\"hljs-subst\">Show directory.</a>&nbsp;&nbsp;|&nbsp;&nbsp;\n        <a href=\"$uri?raw=1\" class=\"hljs-subst\">Get the raw file here.</a>&nbsp;&nbsp;|&nbsp;&nbsp;\n        <a href=\"#\" id=\"prvstyle\" class=\"hljs-subst\">&larr;</a>&nbsp;Style&nbsp;\n        \"<span id=\"style\" style=\"text-transform: capitalize; display: inline-block; min-width: 20ch;\"></span>\"\n        &nbsp;<a href=\"#\" id=\"nxtstyle\" class=\"hljs-subst\">&rarr;</a>&nbsp;&nbsp;|&nbsp;&nbsp;\n        <a href=\"#\" id=\"wrap\" class=\"hljs-subst\">Toggle wrapping.</a>\n    </div>\n    <pre><code id=\"code\" class=\"$lang\"></code></pre> </body>\n</html>"

/-- `string.Template(MAGIC_HTML).substitute(css=..., js=..., styles=...,
scripts=..., highlight_version=...)` (lines 103-110): the filled, un-minified
document. -/
def assembledHtml (jqueryVersion highlightVersion lineNumbersVersion : String)
    (styles : List String) : String :=
  htmlSeg1 ++ MINIFIED_CSS ++ htmlSeg2 ++
    scriptsBlock jqueryVersion highlightVersion lineNumbersVersion ++
    htmlSeg3 ++ highlightVersion ++ htmlSeg4 ++ jsonArray styles ++ ";" ++ MINIFIED_JS ++
    htmlSeg5

/-- Whitespace in the sense of the minifier model. -/
def isWs (c : Char) : Bool :=
  c = ' ' || c = Char.ofNat 9 || c = Char.ofNat 10 || c = Char.ofNat 13

/-- One pass collapsing each whitespace run to one space; the flag records
whether the previous character was whitespace. -/
def collapseChars : Bool → List Char → List Char
  | _, [] => []
  | afterWs, c :: cs =>
    if isWs c then
      if afterWs then collapseChars true cs else ' ' :: collapseChars true cs
    else c :: collapseChars false cs

/-- Modelled from the spec: the external minifier (`htmlmin.minify`, §4.3 step 4
"strip comments and collapse insignificant whitespace...") — a lossless
whitespace collapse; it only deletes characters or replaces whitespace runs by a
single space, never introducing new non-space characters. -/
def minify (s : String) : String := String.mk (collapseChars false s.data)

/-- One routing rule (line 125):
`'location ~* %s { if ($arg_raw) {break;} set $lang %s; try_files @highlight @highlight; }' % (regex, language)`. -/
def locationRule (regex language : String) : String :=
  "location ~* " ++ regex ++ " \x7b if ($arg_raw) \x7bbreak;\x7d set $lang " ++ language ++
    "; try_files @highlight @highlight; \x7d"

/-- `location_gen` (lines 125-126): one rule per `(language, regex)` item of the
input mapping whose key is not missing, in the mapping's insertion order. -/
def locationRules (highlightFiles : List String)
    (languages : List (String × String)) : List String :=
  (languages.filter
      (fun p => !decide (p.1 ∈ missingLanguagesOf highlightFiles languages))).map
    (fun p => locationRule p.2 p.1)

/-- The language tags of the routing rules `run` emits, in emission order. -/
def routedTags (highlightFiles : List String)
    (languages : List (String × String)) : List String :=
  (languages.filter
      (fun p => !decide (p.1 ∈ missingLanguagesOf highlightFiles languages))).map Prod.fst

/-- `'# Requested languages: ' + ', '.join('%s: %s' % (k, v) ...)` (line 132). -/
def requestedLanguagesLine (languages : List (String × String)) : String :=
  "# Requested languages: " ++ joinSep ", " (languages.map (fun p => p.1 ++ ": " ++ p.2))

/-- `'# Requested styles: ' + ', '.join(styles)` (line 133). -/
def requestedStylesLine (styles : List String) : String :=
  "# Requested styles: " ++ joinSep ", " styles

/-- `'# Missing languages: ' + (... if missing_languages else 'None')` (line 134);
the join runs over `languages.items()` filtered by membership in the missing
set, hence in insertion order. -/
def missingLanguagesLine (highlightFiles : List String)
    (languages : List (String × String)) : String :=
  "# Missing languages: " ++
    (if missingLanguagesOf highlightFiles languages = [] then "None"
     else joinSep ", "
       ((languages.filter
           (fun p => decide (p.1 ∈ missingLanguagesOf highlightFiles languages))).map
         (fun p => p.1 ++ ": " ++ p.2)))

/-- `'# Missing styles: ' + (', '.join(missing_styles) if missing_styles else 'None')`
(line 135).  The join iterates the Python SET `missing_styles`, whose order is
implementation-defined; that order is the explicit oracle `msOrder`. -/
def missingStylesLine (highlightFiles : List String) (styles : List String)
    (msOrder : List String) : String :=
  "# Missing styles: " ++
    (if missingStylesOf highlightFiles styles = [] then "None" else joinSep ", " msOrder)

/-- The shared `location @highlight` block (lines 137-147), with the minified
document embedded as a single-quoted literal. -/
def handlerLines (document : String) : List String :=
  ["location @highlight \x7b",
   "    if (!-f $request_filename) \x7b",
   "        return 404;",
   "    \x7d",
   "    charset UTF-8;",
   "    override_charset on;",
   "    source_charset UTF-8;",
   "    default_type text/html;",
   "    add_header Content-Type text/html;",
   "    return 200 \x27" ++ document ++ "\x27;",
   "\x7d"]

/-- The tuple of output lines of lines 129-148, before `filter(None, ...)` and
the newline join. -/
def configLines (highlightFiles : List String) (languages : List (String × String))
    (styles : List String) (msOrder : List String) (document : String) : List String :=
  ["# NginxSourceViewer",
   "# -----------------",
   requestedLanguagesLine languages,
   requestedStylesLine styles,
   missingLanguagesLine highlightFiles languages,
   missingStylesLine highlightFiles styles msOrder] ++
  locationRules highlightFiles languages ++ handlerLines document

/-- `run(languages, styles)` (lines 57-148), with the catalog responses passed
in (`jqueryVersion`, `highlightVersion` + `highlightFiles`,
`lineNumbersVersion`) and the hidden set-iteration order `msOrder` explicit:
normalize the style list, fill and validate the document (single-quote guard
first, then minify and the `> 4096-20` size guard), then join the comment
lines, routing rules and shared handler with newlines. -/
def run (jqueryVersion highlightVersion lineNumbersVersion : String)
    (highlightFiles : List String) (languages : List (String × String))
    (stylesArg : Option (List String)) (msOrder : List String) : Except GenError String :=
  match effectiveStylesOf highlightFiles stylesArg with
  | Except.error e => Except.error e
  | Except.ok styles =>
    let html := assembledHtml jqueryVersion highlightVersion lineNumbersVersion styles
    if squote ∈ html.data then Except.error GenError.unsafeLiteral
    else
      let m := minify html
      if 4096 - 20 < m.length then Except.error GenError.configTooLarge
      else
        Except.ok
          (joinSep "\n"
            ((configLines highlightFiles languages styles msOrder m).filter
              (fun l => l != "")))

/-- The success payload of a generator result, `none` when an error was raised. -/
def okOf : Except GenError String → Option String
  | Except.ok s => some s
  | Except.error _ => none

/-- A 1485-character catalog version string: with this jquery version (and
`"1"` for the other two versions, style list `["default"]`) the minified
document is exactly `4096 - 20 = 4076` characters long. -/
def padVersionFit : String := String.mk (List.replicate 1485 (Char.ofNat 97))

/-- One character more than `padVersionFit`: the minified document is 4077
characters long, just over the ceiling. -/
def padVersionBig : String := String.mk (List.replicate 1486 (Char.ofNat 97))

/-- The whitespace-collapse state left behind by a block of characters: the
incoming state for an empty block, otherwise whether the last character is
whitespace. -/
def wsState : Bool → List Char → Bool
  | b, [] => b
  | _, c :: cs => wsState (isWs c) cs

/-- The assembled document up to the jquery version (which is spliced into the
first script tag's URL). -/
def htmlPreJq : String :=
  htmlSeg1 ++ MINIFIED_CSS ++ htmlSeg2 ++
    "<script src=\"https://cdnjs.cloudflare.com/ajax/libs/" ++ "jquery" ++ "/"

/-- The assembled document between the jquery version and `MINIFIED_JS`, for
highlight/line-numbers versions `"1"` and style list `["default"]`. -/
def htmlPostJq1 : String :=
  "/" ++ "jquery.min.js" ++ "\"></script>" ++ "\n    " ++
    createScriptTag "highlight.js" "1" "highlight.min.js" ++ "\n    " ++
    createScriptTag "highlightjs-line-numbers.js" "1" "highlightjs-line-numbers.min.js" ++
    htmlSeg3 ++ "1" ++ htmlSeg4 ++ jsonArray ["default"] ++ ";"

/-- The assembled document between the jquery version and the styles JSON
array, for highlight/line-numbers versions `"1"`. -/
def htmlMid1 : String :=
  "/" ++ "jquery.min.js" ++ "\"></script>" ++ "\n    " ++
    createScriptTag "highlight.js" "1" "highlight.min.js" ++ "\n    " ++
    createScriptTag "highlightjs-line-numbers.js" "1" "highlightjs-line-numbers.min.js" ++
    htmlSeg3 ++ "1" ++ htmlSeg4

/-- Membership in the missing-languages set: a requested key that is not a
possible language. -/
theorem mem_missingLanguagesOf {files : List String} {languages : List (String × String)}
    {k : String} :
    k ∈ missingLanguagesOf files languages ↔
      k ∈ languages.map Prod.fst ∧ k ∉ possibleLanguagesOf files := by
  simp [missingLanguagesOf, List.mem_filter]

/-- Membership in the emitted-rule tags: a requested key that IS a possible
language. -/
theorem mem_routedTags {files : List String} {languages : List (String × String)}
    {k : String} :
    k ∈ routedTags files languages ↔
      k ∈ languages.map Prod.fst ∧ k ∈ possibleLanguagesOf files := by
  unfold routedTags
  constructor
  · intro h
    rw [List.mem_map] at h
    obtain ⟨p, hp, rfl⟩ := h
    rw [List.mem_filter] at hp
    obtain ⟨hpl, hcond⟩ := hp
    have hkeys : p.1 ∈ languages.map Prod.fst := List.mem_map_of_mem _ hpl
    refine ⟨hkeys, ?_⟩
    by_contra hpos
    have hmiss : p.1 ∈ missingLanguagesOf files languages :=
      mem_missingLanguagesOf.mpr ⟨hkeys, hpos⟩
    simp [hmiss] at hcond
  · rintro ⟨hkeys, hpos⟩
    rw [List.mem_map] at hkeys
    obtain ⟨p, hp, rfl⟩ := hkeys
    rw [List.mem_map]
    refine ⟨p, ?_, rfl⟩
    rw [List.mem_filter]
    refine ⟨hp, ?_⟩
    simp [mem_missingLanguagesOf, hpos]

/-- Every character of a collapsed string is a space or a character of the
input: the whitespace collapse introduces nothing else. -/
theorem mem_collapseChars {c : Char} :
    ∀ (b : Bool) (l : List Char), c ∈ collapseChars b l → c = ' ' ∨ c ∈ l := by
  intro b l
  induction l generalizing b with
  | nil => intro h; simp [collapseChars] at h
  | cons x xs ih =>
    intro h
    by_cases hw : isWs x = true
    · cases b with
      | true =>
        have h2 : c ∈ collapseChars true xs := by simpa [collapseChars, hw] using h
        rcases ih true h2 with h1 | h1
        · exact Or.inl h1
        · exact Or.inr (List.mem_cons_of_mem _ h1)
      | false =>
        have h2 : c = ' ' ∨ c ∈ collapseChars true xs := by
          simpa [collapseChars, hw] using h
        rcases h2 with h1 | h1
        · exact Or.inl h1
        · rcases ih true h1 with h3 | h3
          · exact Or.inl h3
          · exact Or.inr (List.mem_cons_of_mem _ h3)
    · have h2 : c = x ∨ c ∈ collapseChars false xs := by
        simpa [collapseChars, hw] using h
      rcases h2 with h1 | h1
      · exact Or.inr (h1 ▸ List.mem_cons_self _ _)
      · rcases ih false h1 with h3 | h3
        · exact Or.inl h3
        · exact Or.inr (List.mem_cons_of_mem _ h3)

/-- The whitespace collapse distributes over append, threading the state left
by the first block. -/
theorem collapseChars_append (b : Bool) (l1 l2 : List Char) :
    collapseChars b (l1 ++ l2) =
      collapseChars b l1 ++ collapseChars (wsState b l1) l2 := by
  induction l1 generalizing b with
  | nil => rfl
  | cons c cs ih =>
    by_cases hw : isWs c = true
    · cases b with
      | true => simp [collapseChars, wsState, hw, ih]
      | false => simp [collapseChars, wsState, hw, ih]
    · simp [collapseChars, wsState, hw, ih]

/-- A block without whitespace is left untouched by the collapse. -/
theorem collapseChars_no_ws (l : List Char) (hl : ∀ c ∈ l, isWs c = false) :
    ∀ b, collapseChars b l = l := by
  induction l with
  | nil => intro b; rfl
  | cons c cs ih =>
    intro b
    have hc : isWs c = false := hl c (List.mem_cons_self _ _)
    simp only [collapseChars, hc, Bool.false_eq_true, if_false, List.cons.injEq, true_and]
    exact ih (fun x hx => hl x (List.mem_cons_of_mem _ hx)) false

/-- A block without whitespace leaves the collapse state `false`. -/
theorem wsState_no_ws (l : List Char) (hl : ∀ c ∈ l, isWs c = false) :
    wsState false l = false := by
  induction l with
  | nil => rfl
  | cons c cs ih =>
    have hc : isWs c = false := hl c (List.mem_cons_self _ _)
    simp only [wsState, hc]
    exact ih (fun x hx => hl x (List.mem_cons_of_mem _ hx))

/-- The padding character `a` is not whitespace. -/
theorem replicate_no_ws (n : Nat) :
    ∀ c ∈ List.replicate n (Char.ofNat 97), isWs c = false := by
  intro c hc
  rw [List.eq_of_mem_replicate hc]
  decide

/-- Minified length of the document for a jquery version of `n` padding
characters (other versions `"1"`, styles `["default"]`): the fixed template
contributes 2591 characters after whitespace collapse, the version `n` more. -/
theorem minify_padded_length (n : Nat) :
    (minify (assembledHtml (String.mk (List.replicate n (Char.ofNat 97))) "1" "1"
      ["default"])).length = 2591 + n := by
  have hsplit : (assembledHtml (String.mk (List.replicate n (Char.ofNat 97))) "1" "1"
      ["default"]).data =
      htmlPreJq.data ++ (List.replicate n (Char.ofNat 97) ++
        (htmlPostJq1.data ++ (MINIFIED_JS.data ++ htmlSeg5.data))) := by
    simp [assembledHtml, scriptsBlock, createScriptTag, joinSep, htmlPreJq, htmlPostJq1,
      String.data_append, List.append_assoc]
  have hstate1 : wsState false htmlPreJq.data = false := by decide
  have hstate2 : wsState false htmlPostJq1.data = false := by decide
  have hstate3 : wsState false MINIFIED_JS.data = false := by decide
  have hl1 : (collapseChars false htmlPreJq.data).length = 642 := by decide
  have hl3 : (collapseChars false htmlPostJq1.data).length = 388 := by decide
  have hl4 : (collapseChars false MINIFIED_JS.data).length = 980 := by decide
  have hl5 : (collapseChars false htmlSeg5.data).length = 581 := by decide
  have hbody : (minify (assembledHtml (String.mk (List.replicate n (Char.ofNat 97))) "1" "1"
      ["default"])).length =
      (collapseChars false (assembledHtml (String.mk (List.replicate n (Char.ofNat 97)))
        "1" "1" ["default"]).data).length := rfl
  rw [hbody, hsplit]
  rw [collapseChars_append, List.length_append, hstate1]
  rw [collapseChars_append, List.length_append,
    collapseChars_no_ws _ (replicate_no_ws n), wsState_no_ws _ (replicate_no_ws n)]
  rw [collapseChars_append, List.length_append, hstate2]
  rw [collapseChars_append, List.length_append, hstate3]
  rw [hl1, hl3, hl4, hl5, List.length_replicate]
  omega

/-- Minified length of the document for versions `"1"` and an arbitrary
(whitespace-free, of collapsed length `j`) styles array: the fixed template
contributes 2581 characters after whitespace collapse. -/
theorem minify_q1_length (styles : List String) (j : Nat)
    (hjstate : wsState false (jsonArray styles).data = false)
    (hjlen : (collapseChars false (jsonArray styles).data).length = j) :
    (minify (assembledHtml "1" "1" "1" styles)).length = 2581 + j := by
  have hsplit : (assembledHtml "1" "1" "1" styles).data =
      htmlPreJq.data ++ (("1" : String).data ++ (htmlMid1.data ++
        ((jsonArray styles).data ++ ((";" : String).data ++
          (MINIFIED_JS.data ++ htmlSeg5.data))))) := by
    simp [assembledHtml, scriptsBlock, createScriptTag, joinSep, htmlPreJq, htmlMid1,
      String.data_append, List.append_assoc]
  have hstate1 : wsState false htmlPreJq.data = false := by decide
  have hstateO : wsState false ("1" : String).data = false := by decide
  have hstateM : wsState false htmlMid1.data = false := by decide
  have hstateS : wsState false (";" : String).data = false := by decide
  have hstateJ : wsState false MINIFIED_JS.data = false := by decide
  have hl1 : (collapseChars false htmlPreJq.data).length = 642 := by decide
  have hlO : (collapseChars false ("1" : String).data).length = 1 := by decide
  have hlM : (collapseChars false htmlMid1.data).length = 376 := by decide
  have hlS : (collapseChars false (";" : String).data).length = 1 := by decide
  have hlJ : (collapseChars false MINIFIED_JS.data).length = 980 := by decide
  have hl5 : (collapseChars false htmlSeg5.data).length = 581 := by decide
  have hbody : (minify (assembledHtml "1" "1" "1" styles)).length =
      (collapseChars false (assembledHtml "1" "1" "1" styles).data).length := rfl
  rw [hbody, hsplit]
  rw [collapseChars_append, List.length_append, hstate1]
  rw [collapseChars_append, List.length_append, hstateO]
  rw [collapseChars_append, List.length_append, hstateM]
  rw [collapseChars_append, List.length_append, hjstate]
  rw [collapseChars_append, List.length_append, hstateS]
  rw [collapseChars_append, List.length_append, hstateJ]
  rw [hl1, hlO, hlM, hjlen, hlS, hlJ, hl5]
  omega

/-- Claim C4 (corrected, amended part): when `StyleList` is omitted and
`"default"` IS a possible style, the effective style list is produced:
it starts with `"default"`, is a permutation of the possible styles, and its
tail is lexicographically sorted and free of `"default"` (i.e. the sorted list
with `"default"` moved to position 0).  When `"default"` is NOT a possible
style, normalization does not succeed: `list.remove` raises. -/
theorem c4_default_style_normalization (files : List String) :
    ("default" ∈ possibleStylesOf files →
      ∃ l, effectiveStylesOf files none = Except.ok l ∧
        l.head? = some "default" ∧ l.Perm (possibleStylesOf files) ∧
        List.Sorted (fun a b : String => a ≤ b) (l.drop 1) ∧ "default" ∉ l.drop 1)
  ∧ ("default" ∉ possibleStylesOf files →
      effectiveStylesOf files none = Except.error GenError.removeMissing) := by
  constructor
  · intro h
    have hmem : "default" ∈ sortedPossibleStyles files := by
      unfold sortedPossibleStyles
      exact (List.mem_insertionSort _).mpr h
    have hnodup : (sortedPossibleStyles files).Nodup := by
      unfold sortedPossibleStyles
      refine (List.perm_insertionSort _ _).nodup_iff.mpr ?_
      unfold possibleStylesOf
      exact List.nodup_dedup _
    refine ⟨"default" :: (sortedPossibleStyles files).erase "default", ?_, rfl, ?_, ?_, ?_⟩
    · simp [effectiveStylesOf, hmem]
    · have hp1 : ("default" :: (sortedPossibleStyles files).erase "default").Perm
          (sortedPossibleStyles files) := (List.perm_cons_erase hmem).symm
      have hp2 : (sortedPossibleStyles files).Perm (possibleStylesOf files) := by
        unfold sortedPossibleStyles
        exact List.perm_insertionSort _ _
      exact hp1.trans hp2
    · have hsort : List.Sorted (fun a b : String => a ≤ b) (sortedPossibleStyles files) := by
        unfold sortedPossibleStyles
        exact List.sorted_insertionSort _ _
      simpa using List.Pairwise.sublist (List.erase_sublist _ _) hsort
    · simpa using hnodup.not_mem_erase
  · intro h
    have hmem : "default" ∉ sortedPossibleStyles files := by
      intro hc
      exact h ((List.mem_insertionSort _).mp hc)
    simp [effectiveStylesOf, hmem]

/-- Claim C4 witness: a catalog offering styles `default` and `dark`. -/
theorem c4_witness :
    "default" ∈ possibleStylesOf ["styles/default.min.css", "styles/dark.min.css"] ∧
      (∃ l, effectiveStylesOf ["styles/default.min.css", "styles/dark.min.css"] none =
          Except.ok l ∧
        l.head? = some "default" ∧
        l.Perm (possibleStylesOf ["styles/default.min.css", "styles/dark.min.css"]) ∧
        List.Sorted (fun a b : String => a ≤ b) (l.drop 1) ∧ "default" ∉ l.drop 1) :=
  ⟨by decide, (c4_default_style_normalization ["styles/default.min.css", "styles/dark.min.css"]).1 (by decide)⟩

/-- Claim C4 counterexample: with `"default"` absent from the possible styles
and `StyleList` omitted, normalization does NOT "still succeed" — `run` raises
the `list.remove` `ValueError` and produces no output. -/
theorem c4_counterexample :
    "default" ∉ possibleStylesOf ["styles/dark.min.css"] ∧
      run "1" "1" "1" ["styles/dark.min.css"] [] none [] =
        Except.error GenError.removeMissing := by
  constructor
  · decide
  · rfl

/-- Claim C9: whenever `"default"` is not among the possible styles and the
caller omits the style list, `run` raises (the `list.remove` `ValueError`)
during style-list normalization and produces no output. -/
theorem c9_missing_default_raises (jq hl ln : String) (files : List String)
    (languages : List (String × String)) (msOrder : List String)
    (h : "default" ∉ possibleStylesOf files) :
    run jq hl ln files languages none msOrder = Except.error GenError.removeMissing := by
  have hmem : "default" ∉ sortedPossibleStyles files := by
    intro hc
    exact h ((List.mem_insertionSort _).mp hc)
  have he : effectiveStylesOf files none = Except.error GenError.removeMissing := by
    simp [effectiveStylesOf, hmem]
  simp [run, he]

/-- Claim C9 witness: a catalog whose only style is `dark`. -/
theorem c9_witness :
    "default" ∉ possibleStylesOf ["styles/dark.min.css"] ∧
      run "v3" "9.12.0" "2.8" ["styles/dark.min.css"] [("python", "\\.(py)$")] none [] =
        Except.error GenError.removeMissing :=
  ⟨by decide, c9_missing_default_raises "v3" "9.12.0" "2.8" ["styles/dark.min.css"]
    [("python", "\\.(py)$")] [] (by decide)⟩

/-- Claim C5 counterexample: the source filters catalog paths on the
`languages/` prefix only and blindly removes seven trailing characters, so the
path `languages/python.js` — whose suffix is NOT `.min.js` — contributes the
identifier `py`, while the spec's prefix-AND-suffix rule contributes nothing. -/
theorem c5_counterexample :
    "py" ∈ possibleLanguagesOf ["languages/python.js"] ∧
      specPossibleLanguagesOf ["languages/python.js"] = [] := by
  decide

/-- Claim C5 (corrected, amended part): the prefix-only derivation of the
source agrees with the spec's prefix-and-suffix derivation exactly when every
prefix-matching catalog path also carries the expected suffix. -/
theorem c5_affix_derivation (files : List String)
    (hlang : ∀ x ∈ files, startsWithB "languages/" x = true → endsWithB ".min.js" x = true)
    (hsty : ∀ x ∈ files, startsWithB "styles/" x = true → endsWithB ".min.css" x = true) :
    possibleLanguagesOf files = specPossibleLanguagesOf files ∧
      possibleStylesOf files = specPossibleStylesOf files := by
  constructor
  · unfold possibleLanguagesOf specPossibleLanguagesOf
    have hf : files.filter (fun x => startsWithB "languages/" x) =
        files.filter (fun x => startsWithB "languages/" x && endsWithB ".min.js" x) := by
      refine List.filter_congr ?_
      intro x hx
      cases hsw : startsWithB "languages/" x with
      | false => simp [hsw]
      | true => simp [hsw, hlang x hx hsw]
    rw [hf]
  · unfold possibleStylesOf specPossibleStylesOf
    have hf : files.filter (fun x => startsWithB "styles/" x) =
        files.filter (fun x => startsWithB "styles/" x && endsWithB ".min.css" x) := by
      refine List.filter_congr ?_
      intro x hx
      cases hsw : startsWithB "styles/" x with
      | false => simp [hsw]
      | true => simp [hsw, hsty x hx hsw]
    rw [hf]

/-- Claim C5 witness: a well-formed catalog listing. -/
theorem c5_witness :
    (∀ x ∈ (["languages/python.min.js", "styles/default.min.css", "README.md"] : List String),
        startsWithB "languages/" x = true → endsWithB ".min.js" x = true) ∧
    (∀ x ∈ (["languages/python.min.js", "styles/default.min.css", "README.md"] : List String),
        startsWithB "styles/" x = true → endsWithB ".min.css" x = true) ∧
    (possibleLanguagesOf ["languages/python.min.js", "styles/default.min.css", "README.md"] =
        specPossibleLanguagesOf
          ["languages/python.min.js", "styles/default.min.css", "README.md"] ∧
      possibleStylesOf ["languages/python.min.js", "styles/default.min.css", "README.md"] =
        specPossibleStylesOf
          ["languages/python.min.js", "styles/default.min.css", "README.md"]) :=
  ⟨by decide, by decide,
    c5_affix_derivation ["languages/python.min.js", "styles/default.min.css", "README.md"]
      (by decide) (by decide)⟩

/-- Claim C1: the emitted routing rules' tags are exactly the requested keys
that are possible languages; no routed tag is missing; missing and routed tags
together partition the requested keys; and every emitted rule is the rule of a
routed pair of the input mapping. -/
theorem c1_routing_partition (files : List String)
    (languages : List (String × String)) (k : String) :
    (k ∈ routedTags files languages ↔
        k ∈ languages.map Prod.fst ∧ k ∈ possibleLanguagesOf files)
  ∧ ¬(k ∈ routedTags files languages ∧ k ∈ missingLanguagesOf files languages)
  ∧ (k ∈ languages.map Prod.fst ↔
        k ∈ routedTags files languages ∨ k ∈ missingLanguagesOf files languages)
  ∧ (∀ r ∈ locationRules files languages, ∃ p, p ∈ languages ∧
        p.1 ∈ routedTags files languages ∧ r = locationRule p.2 p.1) := by
  refine ⟨mem_routedTags, ?_, ?_, ?_⟩
  · rintro ⟨hr, hm⟩
    rcases mem_routedTags.mp hr with ⟨-, hpos⟩
    rcases mem_missingLanguagesOf.mp hm with ⟨-, hneg⟩
    exact hneg hpos
  · constructor
    · intro hkeys
      by_cases hpos : k ∈ possibleLanguagesOf files
      · exact Or.inl (mem_routedTags.mpr ⟨hkeys, hpos⟩)
      · exact Or.inr (mem_missingLanguagesOf.mpr ⟨hkeys, hpos⟩)
    · intro h
      rcases h with h | h
      · exact (mem_routedTags.mp h).1
      · exact (mem_missingLanguagesOf.mp h).1
  · intro r hr
    unfold locationRules at hr
    rw [List.mem_map] at hr
    obtain ⟨p, hp, rfl⟩ := hr
    rw [List.mem_filter] at hp
    obtain ⟨hpl, hcond⟩ := hp
    refine ⟨p, hpl, ?_, rfl⟩
    have hkeys : p.1 ∈ languages.map Prod.fst := List.mem_map_of_mem _ hpl
    refine mem_routedTags.mpr ⟨hkeys, ?_⟩
    by_contra hpos
    have hmiss : p.1 ∈ missingLanguagesOf files languages :=
      mem_missingLanguagesOf.mpr ⟨hkeys, hpos⟩
    simp [hmiss] at hcond

/-- Claim C7: emitted rules keep the insertion order of the input mapping —
around any two available entries `a` (earlier) and `b` (later) the rule list
splits so that `a`'s rule precedes `b`'s rule. -/
theorem c7_rule_order (files : List String) (pre mid post : List (String × String))
    (a b : String × String) (ha : a.1 ∈ possibleLanguagesOf files)
    (hb : b.1 ∈ possibleLanguagesOf files) :
    ∃ xs ys zs, locationRules files (pre ++ a :: mid ++ b :: post) =
      xs ++ locationRule a.2 a.1 :: (ys ++ locationRule b.2 b.1 :: zs) := by
  have hfa : (!decide (a.1 ∈
      missingLanguagesOf files (pre ++ a :: mid ++ b :: post))) = true := by
    simp [mem_missingLanguagesOf, ha]
  have hfb : (!decide (b.1 ∈
      missingLanguagesOf files (pre ++ a :: mid ++ b :: post))) = true := by
    simp [mem_missingLanguagesOf, hb]
  refine ⟨(pre.filter (fun p => !decide (p.1 ∈
      missingLanguagesOf files (pre ++ a :: mid ++ b :: post)))).map
        (fun p => locationRule p.2 p.1),
    (mid.filter (fun p => !decide (p.1 ∈
      missingLanguagesOf files (pre ++ a :: mid ++ b :: post)))).map
        (fun p => locationRule p.2 p.1),
    (post.filter (fun p => !decide (p.1 ∈
      missingLanguagesOf files (pre ++ a :: mid ++ b :: post)))).map
        (fun p => locationRule p.2 p.1), ?_⟩
  unfold locationRules
  rw [List.filter_append, List.filter_cons, List.filter_append, List.filter_cons]
  rw [hfa, hfb]
  simp

/-- Claim C7 witness: `aa` before `bb`, both available, one unavailable entry
in front. -/
theorem c7_witness :
    ("aa" : String) ∈ possibleLanguagesOf ["languages/aa.min.js", "languages/bb.min.js"] ∧
    ("bb" : String) ∈ possibleLanguagesOf ["languages/aa.min.js", "languages/bb.min.js"] ∧
    (∃ xs ys zs, locationRules ["languages/aa.min.js", "languages/bb.min.js"]
        ([("zz", "\\.(zz)$")] ++ ("aa", "\\.(aa)$") :: [] ++ ("bb", "\\.(bb)$") :: []) =
      xs ++ locationRule "\\.(aa)$" "aa" :: (ys ++ locationRule "\\.(bb)$" "bb" :: zs)) :=
  ⟨by decide, by decide,
    c7_rule_order ["languages/aa.min.js", "languages/bb.min.js"] [("zz", "\\.(zz)$")] [] []
      ("aa", "\\.(aa)$") ("bb", "\\.(bb)$") (by decide) (by decide)⟩

/-- Claim C3: a single quote anywhere in the assembled document makes `run`
raise the unsafe-literal error, with no size hypothesis — the quote guard
(line 113) fires before the size guard (line 122); and a successful `run`
embeds a minified document free of single quotes. -/
theorem c3_single_quote_guard (jq hl ln : String) (files : List String)
    (languages : List (String × String)) (stylesArg : Option (List String))
    (st msOrder : List String)
    (hst : effectiveStylesOf files stylesArg = Except.ok st) :
    (squote ∈ (assembledHtml jq hl ln st).data →
        run jq hl ln files languages stylesArg msOrder = Except.error GenError.unsafeLiteral)
  ∧ (∀ out, run jq hl ln files languages stylesArg msOrder = Except.ok out →
        squote ∉ (minify (assembledHtml jq hl ln st)).data) := by
  constructor
  · intro hq
    simp [run, hst, hq]
  · intro out hout hq2
    have hq : squote ∈ (assembledHtml jq hl ln st).data := by
      have hmem := mem_collapseChars false (assembledHtml jq hl ln st).data hq2
      rcases hmem with h1 | h1
      · exact absurd h1 (by decide)
      · exact h1
    simp [run, hst, hq] at hout

/-- Claim C3 witness: a jquery version string carrying a single quote. -/
theorem c3_witness :
    effectiveStylesOf [] (some ["default"]) = Except.ok ["default"] ∧
      squote ∈ (assembledHtml "1\x27" "1" "1" ["default"]).data ∧
      run "1\x27" "1" "1" [] [] (some ["default"]) [] =
        Except.error GenError.unsafeLiteral := by
  have hq : squote ∈ (assembledHtml "1\x27" "1" "1" ["default"]).data := by decide
  exact ⟨rfl, hq,
    (c3_single_quote_guard "1\x27" "1" "1" [] [] (some ["default"]) ["default"] [] rfl).1 hq⟩

/-- Claim C2 (corrected, amended part): the size guard is `new_size > 4096-20`
(line 122) — a quote-free document whose minified length strictly exceeds 4076
makes `run` raise the size error, and any successful `run` embeds a minified
document of length at most 4076 (not strictly less). -/
theorem c2_size_guard (jq hl ln : String) (files : List String)
    (languages : List (String × String)) (stylesArg : Option (List String))
    (st msOrder : List String)
    (hst : effectiveStylesOf files stylesArg = Except.ok st) :
    (squote ∉ (assembledHtml jq hl ln st).data →
        4096 - 20 < (minify (assembledHtml jq hl ln st)).length →
        run jq hl ln files languages stylesArg msOrder =
          Except.error GenError.configTooLarge)
  ∧ (∀ out, run jq hl ln files languages stylesArg msOrder = Except.ok out →
        (minify (assembledHtml jq hl ln st)).length ≤ 4096 - 20) := by
  constructor
  · intro hq hlen
    simp [run, hst, hq, hlen]
  · intro out hout
    by_contra hgt
    push_neg at hgt
    by_cases hq : squote ∈ (assembledHtml jq hl ln st).data
    · simp [run, hst, hq] at hout
    · simp [run, hst, hq, hgt] at hout

/-- Claim C2 witness: a 1486-character version string pushes the minified
document to 4077 characters and `run` raises the size error. -/
theorem c2_witness :
    effectiveStylesOf [] (some ["default"]) = Except.ok ["default"] ∧
      squote ∉ (assembledHtml padVersionBig "1" "1" ["default"]).data ∧
      4096 - 20 < (minify (assembledHtml padVersionBig "1" "1" ["default"])).length ∧
      run padVersionBig "1" "1" [] [] (some ["default"]) ["default"] =
        Except.error GenError.configTooLarge := by
  have hq : squote ∉ (assembledHtml padVersionBig "1" "1" ["default"]).data := by decide
  have hlen0 : (minify (assembledHtml padVersionBig "1" "1" ["default"])).length =
      2591 + 1486 := by
    have h := minify_padded_length 1486
    rwa [show String.mk (List.replicate 1486 (Char.ofNat 97)) = padVersionBig from rfl] at h
  have hlen : 4096 - 20 <
      (minify (assembledHtml padVersionBig "1" "1" ["default"])).length := by
    rw [hlen0]
    omega
  exact ⟨rfl, hq, hlen,
    (c2_size_guard padVersionBig "1" "1" [] [] (some ["default"]) ["default"] ["default"]
      rfl).1 hq hlen⟩

/-- Claim C2 counterexample: a minified document of length exactly
`4096 - 20 = 4076` is NOT rejected — `run` succeeds and embeds it, because the
source tests `new_size > 4096-20`, not `>=`. -/
theorem c2_counterexample :
    (minify (assembledHtml padVersionFit "1" "1" ["default"])).length = 4096 - 20 ∧
      okOf (run padVersionFit "1" "1" [] [] (some ["default"]) ["default"]) ≠ none := by
  have hlen0 : (minify (assembledHtml padVersionFit "1" "1" ["default"])).length =
      2591 + 1485 := by
    have h := minify_padded_length 1485
    rwa [show String.mk (List.replicate 1485 (Char.ofNat 97)) = padVersionFit from rfl] at h
  have hq : squote ∉ (assembledHtml padVersionFit "1" "1" ["default"]).data := by decide
  constructor
  · rw [hlen0]
  · have hnl : ¬ (4096 - 20 <
        (minify (assembledHtml padVersionFit "1" "1" ["default"])).length) := by
      rw [hlen0]
      omega
    simp [run, effectiveStylesOf, hq, hnl, okOf]

/-- Claim C8: requested languages absent from the catalog are never fatal —
whether `run` raises does not depend on the language mapping at all; a
single-entry mapping whose key is unavailable yields zero rules and a
missing-languages comment naming it; and with every requested language
available the missing-languages comment reads `None`. -/
theorem c8_missing_language_not_fatal (jq hl ln : String) (files : List String)
    (k regex : String) (stylesArg : Option (List String)) (msOrder : List String)
    (hk : k ∉ possibleLanguagesOf files) :
    locationRules files [(k, regex)] = []
  ∧ missingLanguagesLine files [(k, regex)] =
      "# Missing languages: " ++ (k ++ ": " ++ regex)
  ∧ (∀ langs1 langs2 : List (String × String),
      (okOf (run jq hl ln files langs1 stylesArg msOrder)).isSome =
        (okOf (run jq hl ln files langs2 stylesArg msOrder)).isSome)
  ∧ (∀ langs : List (String × String),
      (∀ p ∈ langs, p.1 ∈ possibleLanguagesOf files) →
        missingLanguagesLine files langs = "# Missing languages: None") := by
  have hmem : k ∈ missingLanguagesOf files [(k, regex)] := by
    refine mem_missingLanguagesOf.mpr ⟨?_, hk⟩
    simp
  refine ⟨?_, ?_, ?_, ?_⟩
  · simp [locationRules, hmem]
  · have hms : missingLanguagesOf files [(k, regex)] = [k] := by
      simp [missingLanguagesOf, hk]
    simp [missingLanguagesLine, hms, joinSep]
  · intro langs1 langs2
    unfold run
    cases he : effectiveStylesOf files stylesArg with
    | error e => simp [okOf]
    | ok st =>
      by_cases hq : squote ∈ (assembledHtml jq hl ln st).data
      · simp [hq, okOf]
      · by_cases hlen : 4096 - 20 < (minify (assembledHtml jq hl ln st)).length
        · simp [hq, hlen, okOf]
        · simp [hq, hlen, okOf]
  · intro langs hall
    have hml : missingLanguagesOf files langs = [] := by
      unfold missingLanguagesOf
      rw [List.filter_eq_nil_iff]
      intro a ha
      rw [List.mem_map] at ha
      obtain ⟨p, hp, rfl⟩ := ha
      simp [hall p hp]
    simp [missingLanguagesLine, hml]

/-- Claim C8 witness: catalog only knows `cpp`, the caller asks for `cobol`. -/
theorem c8_witness :
    ("cobol" : String) ∉ possibleLanguagesOf ["languages/cpp.min.js"] ∧
      (locationRules ["languages/cpp.min.js"] [("cobol", "\\.(cbl)$")] = []
    ∧ missingLanguagesLine ["languages/cpp.min.js"] [("cobol", "\\.(cbl)$")] =
        "# Missing languages: " ++ ("cobol" ++ ": " ++ "\\.(cbl)$")
    ∧ (∀ langs1 langs2 : List (String × String),
        (okOf (run "1" "1" "1" ["languages/cpp.min.js"] langs1 (some ["default"])
          ["default"])).isSome =
          (okOf (run "1" "1" "1" ["languages/cpp.min.js"] langs2 (some ["default"])
            ["default"])).isSome)
    ∧ (∀ langs : List (String × String),
        (∀ p ∈ langs, p.1 ∈ possibleLanguagesOf ["languages/cpp.min.js"]) →
          missingLanguagesLine ["languages/cpp.min.js"] langs =
            "# Missing languages: None")) :=
  ⟨by decide, c8_missing_language_not_fatal "1" "1" "1" ["languages/cpp.min.js"]
    "cobol" "\\.(cbl)$" (some ["default"]) ["default"] (by decide)⟩

/-- Claim C10: with a caller-supplied style list the full list is embedded in
the document (as the JSON `STYLES` array) and echoed verbatim in the
`Requested styles` comment, and — beyond the possible-languages set — the
catalog file list influences nothing but the missing-styles comment line: all
other output lines coincide with those computed from any other file list with
the same possible languages. -/
theorem c10_missing_styles_only_diagnostic (jq hl ln : String) (f1 f2 : List String)
    (languages : List (String × String)) (st msOrder : List String) (document : String)
    (hpl : possibleLanguagesOf f1 = possibleLanguagesOf f2) :
    (jsonArray st).data <:+: (assembledHtml jq hl ln st).data
  ∧ requestedStylesLine st = "# Requested styles: " ++ joinSep ", " st
  ∧ configLines f1 languages st msOrder document =
      ["# NginxSourceViewer", "# -----------------", requestedLanguagesLine languages,
        requestedStylesLine st, missingLanguagesLine f2 languages,
        missingStylesLine f1 st msOrder] ++
      locationRules f2 languages ++ handlerLines document := by
  have hml : missingLanguagesOf f1 languages = missingLanguagesOf f2 languages := by
    unfold missingLanguagesOf
    rw [hpl]
  refine ⟨?_, rfl, ?_⟩
  · refine ⟨(htmlSeg1 ++ MINIFIED_CSS ++ htmlSeg2 ++ scriptsBlock jq hl ln ++ htmlSeg3 ++
      hl ++ htmlSeg4).data, (";" ++ MINIFIED_JS ++ htmlSeg5).data, ?_⟩
    simp [assembledHtml, String.data_append, List.append_assoc]
  · have h2 : missingLanguagesLine f1 languages = missingLanguagesLine f2 languages := by
      unfold missingLanguagesLine
      rw [hml]
    have h3 : locationRules f1 languages = locationRules f2 languages := by
      unfold locationRules
      rw [hml]
    simp [configLines, h2, h3]

/-- Claim C10 witness: two catalogs with the same possible languages, the
second lacking the style files. -/
theorem c10_witness :
    possibleLanguagesOf ["languages/xx.min.js", "styles/s1.min.css"] =
      possibleLanguagesOf ["languages/xx.min.js"] ∧
    ((jsonArray ["s1", "zz"]).data <:+:
        (assembledHtml "1" "2" "3" ["s1", "zz"]).data
    ∧ requestedStylesLine ["s1", "zz"] =
        "# Requested styles: " ++ joinSep ", " ["s1", "zz"]
    ∧ configLines ["languages/xx.min.js", "styles/s1.min.css"] [("xx", "\\.(xx)$")]
        ["s1", "zz"] ["zz"] "doc" =
      ["# NginxSourceViewer", "# -----------------",
        requestedLanguagesLine [("xx", "\\.(xx)$")],
        requestedStylesLine ["s1", "zz"],
        missingLanguagesLine ["languages/xx.min.js"] [("xx", "\\.(xx)$")],
        missingStylesLine ["languages/xx.min.js", "styles/s1.min.css"] ["s1", "zz"]
          ["zz"]] ++
      locationRules ["languages/xx.min.js"] [("xx", "\\.(xx)$")] ++ handlerLines "doc") :=
  ⟨by decide, c10_missing_styles_only_diagnostic "1" "2" "3"
    ["languages/xx.min.js", "styles/s1.min.css"] ["languages/xx.min.js"]
    [("xx", "\\.(xx)$")] ["s1", "zz"] ["zz"] "doc" (by decide)⟩

/-- Claim C6: `run` is NOT a function of the declared inputs alone — the
missing-styles comment joins the Python set `missing_styles` in its hidden,
hash-randomized iteration order.  Both `["s1", "s2"]` and `["s2", "s1"]` are
enumerations of the same missing-styles set, yet the two outputs differ. -/
theorem c6_set_iteration_order_leaks :
    (["s1", "s2"] : List String).Perm (missingStylesOf [] ["s1", "s2"])
  ∧ (["s2", "s1"] : List String).Perm (missingStylesOf [] ["s1", "s2"])
  ∧ okOf (run "1" "1" "1" [] [] (some ["s1", "s2"]) ["s1", "s2"]) ≠
      okOf (run "1" "1" "1" [] [] (some ["s1", "s2"]) ["s2", "s1"]) := by
  refine ⟨by decide, by decide, ?_⟩
  have hq : squote ∉ (assembledHtml "1" "1" "1" ["s1", "s2"]).data := by decide
  have hlen : (minify (assembledHtml "1" "1" "1" ["s1", "s2"])).length = 2581 + 11 :=
    minify_q1_length ["s1", "s2"] 11 (by decide) (by decide)
  have hnl : ¬ (4096 - 20 < (minify (assembledHtml "1" "1" "1" ["s1", "s2"])).length) := by
    rw [hlen]
    omega
  simp only [run, effectiveStylesOf, hq, hnl, if_neg, if_false, okOf]
  decide

/-- Claim C1 witness: catalog knows `python`, request asks for `python` and
`cobol`. -/
theorem c1_witness :
    (("python" : String) ∈ routedTags ["languages/python.min.js"]
        [("python", "\\.(py)$"), ("cobol", "\\.(cbl)$")] ↔
      ("python" : String) ∈
          [("python", "\\.(py)$"), ("cobol", "\\.(cbl)$")].map Prod.fst ∧
        ("python" : String) ∈ possibleLanguagesOf ["languages/python.min.js"])
  ∧ ¬(("python" : String) ∈ routedTags ["languages/python.min.js"]
        [("python", "\\.(py)$"), ("cobol", "\\.(cbl)$")] ∧
      ("python" : String) ∈ missingLanguagesOf ["languages/python.min.js"]
        [("python", "\\.(py)$"), ("cobol", "\\.(cbl)$")])
  ∧ (("python" : String) ∈
        [("python", "\\.(py)$"), ("cobol", "\\.(cbl)$")].map Prod.fst ↔
      ("python" : String) ∈ routedTags ["languages/python.min.js"]
          [("python", "\\.(py)$"), ("cobol", "\\.(cbl)$")] ∨
        ("python" : String) ∈ missingLanguagesOf ["languages/python.min.js"]
          [("python", "\\.(py)$"), ("cobol", "\\.(cbl)$")])
  ∧ (∀ r ∈ locationRules ["languages/python.min.js"]
        [("python", "\\.(py)$"), ("cobol", "\\.(cbl)$")],
      ∃ p, p ∈ [("python", "\\.(py)$"), ("cobol", "\\.(cbl)$")] ∧
        p.1 ∈ routedTags ["languages/python.min.js"]
          [("python", "\\.(py)$"), ("cobol", "\\.(cbl)$")] ∧
        r = locationRule p.2 p.1) :=
  c1_routing_partition ["languages/python.min.js"]
    [("python", "\\.(py)$"), ("cobol", "\\.(cbl)$")] "python"
